import Mathlib

/-!
Shallow embedding of the caltrack backend (`src/backend/app`) for checking
its natural-language specification.

Conventions of the embedding:
* Python `float` nutrition quantities are modelled as `ℚ`; Python `int`
  identifiers and `date`/`datetime` values are modelled as `Int`
  (a calendar date is its day number, so `date + timedelta(days = n)` is
  `d + n`; `isoformat` is injective on dates, so keying a map by the date
  itself is faithful).
* The SQLAlchemy session is modelled as a `List` of rows; `query(...).filter`
  is `List.filter`, `.first()` is `List.find?`, `.order_by` is
  `List.insertionSort` with the corresponding lexicographic key.
* A FastAPI handler that can raise `HTTPException` returns the untouched
  store together with an `Option String` error detail.
-/

set_option autoImplicit false

namespace CalTrack

/-- `app.models.models.FoodEntry` (the `food_entries` table). -/
structure FoodEntry where
  id : Int
  user_id : Int
  date : Int
  meal_type : String
  name : String
  brand : Option String
  barcode : Option String
  serving_size : ℚ
  servings : ℚ
  calories : ℚ
  protein : ℚ
  carbs : ℚ
  fat : ℚ
  fiber : ℚ
  sugar : ℚ
  source : String
  external_id : Option String
  image_url : Option String
  created_at : Int
  deriving DecidableEq, Repr

/-- The running `totals` dict of `get_daily_entries` / one day's bucket of
`get_weekly_stats`: only calories, protein, carbs and fat are accumulated. -/
structure Totals where
  calories : ℚ
  protein : ℚ
  carbs : ℚ
  fat : ℚ
  deriving DecidableEq, Repr

def Totals.zero : Totals := ⟨0, 0, 0, 0⟩

/-- One iteration of the accumulation loops: add
`entry.<macro> * entry.servings` for the four tracked macros. -/
def Totals.addEntry (t : Totals) (e : FoodEntry) : Totals :=
  { calories := t.calories + e.calories * e.servings
    protein := t.protein + e.protein * e.servings
    carbs := t.carbs + e.carbs * e.servings
    fat := t.fat + e.fat * e.servings }

/-- The projection appended into a meal bucket by `get_daily_entries`:
the entry's own fields (`**entry.__dict__`) decorated with the four
effective `total_*` values. -/
structure DailyItem where
  entry : FoodEntry
  total_calories : ℚ
  total_protein : ℚ
  total_carbs : ℚ
  total_fat : ℚ
  deriving DecidableEq, Repr

def mkDailyItem (e : FoodEntry) : DailyItem :=
  { entry := e
    total_calories := e.calories * e.servings
    total_protein := e.protein * e.servings
    total_carbs := e.carbs * e.servings
    total_fat := e.fat * e.servings }

/-- Result of `get_daily_entries`: the four meal buckets of the `grouped`
dict and the `totals` dict (the `date` field of the response is the input
echoed back and is carried by the caller). -/
structure DailyResult where
  breakfast : List DailyItem
  lunch : List DailyItem
  dinner : List DailyItem
  snack : List DailyItem
  totals : Totals
  deriving DecidableEq, Repr

def DailyResult.empty : DailyResult :=
  { breakfast := [], lunch := [], dinner := [], snack := [], totals := Totals.zero }

/-- The four keys `grouped` is initialised with. -/
def mealKeys : List String := ["breakfast", "lunch", "dinner", "snack"]

/-- The `for entry in entries` loop of `get_daily_entries`.
`grouped[entry.meal_type]` on a meal type outside the four initialised
keys raises `KeyError`, modelled as the `.error` branch. -/
def dailyLoop : List FoodEntry → DailyResult → Except String DailyResult
  | [], acc => .ok acc
  | e :: rest, acc =>
    if e.meal_type = "breakfast" then
      dailyLoop rest { acc with breakfast := acc.breakfast ++ [mkDailyItem e],
                                totals := acc.totals.addEntry e }
    else if e.meal_type = "lunch" then
      dailyLoop rest { acc with lunch := acc.lunch ++ [mkDailyItem e],
                                totals := acc.totals.addEntry e }
    else if e.meal_type = "dinner" then
      dailyLoop rest { acc with dinner := acc.dinner ++ [mkDailyItem e],
                                totals := acc.totals.addEntry e }
    else if e.meal_type = "snack" then
      dailyLoop rest { acc with snack := acc.snack ++ [mkDailyItem e],
                                totals := acc.totals.addEntry e }
    else .error "KeyError"

/-- The grouping/totals core of `get_daily_entries`, as a function of the
fetched rows. -/
def dailyAggregate (entries : List FoodEntry) : Except String DailyResult :=
  dailyLoop entries DailyResult.empty

/-- The effective per-entry contribution of one macro, `value × servings`. -/
def contrib (f : FoodEntry → ℚ) (e : FoodEntry) : ℚ := f e * e.servings

/-- Sum of effective contributions of one macro over a list of rows. -/
def sumContrib (f : FoodEntry → ℚ) (entries : List FoodEntry) : ℚ :=
  (entries.map (contrib f)).sum

theorem sumContrib_nil (f : FoodEntry → ℚ) : sumContrib f [] = 0 := rfl

theorem sumContrib_cons (f : FoodEntry → ℚ) (e : FoodEntry) (l : List FoodEntry) :
    sumContrib f (e :: l) = f e * e.servings + sumContrib f l := by
  simp [sumContrib, contrib]

/-- Accumulator-generalised description of the daily loop: on rows whose
meal types are among the four keys it never errors, appends each row
(as its decorated projection) to the bucket named by its meal type, and
adds the effective contributions into the totals. -/
theorem dailyLoop_ok (entries : List FoodEntry) (acc : DailyResult)
    (h : ∀ e ∈ entries, e.meal_type ∈ mealKeys) :
    dailyLoop entries acc = .ok
      { breakfast := acc.breakfast ++
          ((entries.filter (fun e => e.meal_type = "breakfast")).map mkDailyItem)
        lunch := acc.lunch ++
          ((entries.filter (fun e => e.meal_type = "lunch")).map mkDailyItem)
        dinner := acc.dinner ++
          ((entries.filter (fun e => e.meal_type = "dinner")).map mkDailyItem)
        snack := acc.snack ++
          ((entries.filter (fun e => e.meal_type = "snack")).map mkDailyItem)
        totals :=
          { calories := acc.totals.calories + sumContrib FoodEntry.calories entries
            protein := acc.totals.protein + sumContrib FoodEntry.protein entries
            carbs := acc.totals.carbs + sumContrib FoodEntry.carbs entries
            fat := acc.totals.fat + sumContrib FoodEntry.fat entries } } := by
  induction entries generalizing acc with
  | nil =>
    simp [dailyLoop, sumContrib_nil]
  | cons e rest ih =>
    have he : e.meal_type ∈ mealKeys := h e (List.mem_cons_self e rest)
    have hrest : ∀ x ∈ rest, x.meal_type ∈ mealKeys := fun x hx => h x (List.mem_cons_of_mem e hx)
    simp only [mealKeys, List.mem_cons, List.not_mem_nil, or_false] at he
    rcases he with hb | hl | hd | hs
    · rw [dailyLoop, if_pos hb, ih _ hrest]
      simp [List.filter_cons, hb, Totals.addEntry, sumContrib_cons]
      constructor
      · ring
      constructor
      · ring
      constructor
      · ring
      · ring
    · rw [dailyLoop, if_neg (by simp [hl]), if_pos hl, ih _ hrest]
      simp [List.filter_cons, hl, Totals.addEntry, sumContrib_cons]
      constructor
      · ring
      constructor
      · ring
      constructor
      · ring
      · ring
    · rw [dailyLoop, if_neg (by simp [hd]), if_neg (by simp [hd]), if_pos hd, ih _ hrest]
      simp [List.filter_cons, hd, Totals.addEntry, sumContrib_cons]
      constructor
      · ring
      constructor
      · ring
      constructor
      · ring
      · ring
    · rw [dailyLoop, if_neg (by simp [hs]), if_neg (by simp [hs]), if_neg (by simp [hs]),
        if_pos hs, ih _ hrest]
      simp [List.filter_cons, hs, Totals.addEntry, sumContrib_cons]
      constructor
      · ring
      constructor
      · ring
      constructor
      · ring
      · ring

/-- The four meal-type filters split the length of a contract-conforming
row list exactly. -/
theorem mealKeys_filter_length (entries : List FoodEntry)
    (h : ∀ e ∈ entries, e.meal_type ∈ mealKeys) :
    (entries.filter (fun e => e.meal_type = "breakfast")).length +
      (entries.filter (fun e => e.meal_type = "lunch")).length +
      (entries.filter (fun e => e.meal_type = "dinner")).length +
      (entries.filter (fun e => e.meal_type = "snack")).length = entries.length := by
  induction entries with
  | nil => simp
  | cons e rest ih =>
    have he : e.meal_type ∈ mealKeys := h e (List.mem_cons_self e rest)
    have hrest := ih (fun x hx => h x (List.mem_cons_of_mem e hx))
    simp only [mealKeys, List.mem_cons, List.not_mem_nil, or_false] at he
    rcases he with hb | hl | hd | hs
    · simp [List.filter_cons, hb]; omega
    · simp [List.filter_cons, hl]; omega
    · simp [List.filter_cons, hd]; omega
    · simp [List.filter_cons, hs]; omega

/-- A sample food entry used by concrete witnesses. -/
def mkSample (i uid d : Int) (meal : String) (cal pro car fa srv : ℚ)
    (created : Int) : FoodEntry :=
  { id := i, user_id := uid, date := d, meal_type := meal, name := "food",
    brand := none, barcode := none, serving_size := 100, servings := srv,
    calories := cal, protein := pro, carbs := car, fat := fa, fiber := 0,
    sugar := 0, source := "manual", external_id := none, image_url := none,
    created_at := created }

/-- C1: on any fetched rows whose meal types are among the four slot names,
daily aggregation succeeds; each bucket is exactly (the decorated projections
of) the rows whose `meal_type` names it, in fetch order; the four bucket
lengths sum to the number of input rows (each row lands in exactly one
bucket); and each of the four totals equals the sum over all rows of
per-serving value × servings. `Totals` has no fiber or sugar component, and
the totals are fully determined by these four sums, so fiber and sugar are
never rolled up. -/
theorem daily_aggregation_partitions_and_totals (entries : List FoodEntry)
    (h : ∀ e ∈ entries, e.meal_type ∈ mealKeys) :
    ∃ r : DailyResult, dailyAggregate entries = .ok r ∧
      r.breakfast = (entries.filter (fun e => e.meal_type = "breakfast")).map mkDailyItem ∧
      r.lunch = (entries.filter (fun e => e.meal_type = "lunch")).map mkDailyItem ∧
      r.dinner = (entries.filter (fun e => e.meal_type = "dinner")).map mkDailyItem ∧
      r.snack = (entries.filter (fun e => e.meal_type = "snack")).map mkDailyItem ∧
      r.breakfast.length + r.lunch.length + r.dinner.length + r.snack.length =
        entries.length ∧
      r.totals.calories = sumContrib FoodEntry.calories entries ∧
      r.totals.protein = sumContrib FoodEntry.protein entries ∧
      r.totals.carbs = sumContrib FoodEntry.carbs entries ∧
      r.totals.fat = sumContrib FoodEntry.fat entries := by
  refine ⟨_, dailyLoop_ok entries DailyResult.empty h, ?_⟩
  simp [DailyResult.empty, Totals.zero]
  exact mealKeys_filter_length entries h

/-- Concrete instantiation of the daily aggregation theorem: one breakfast
row with `calories = 90, servings = 2` yields total calories `180` and the
other buckets empty. -/
theorem daily_aggregation_partitions_and_totals_witness :
    (∀ e ∈ [mkSample 1 1 0 "breakfast" 90 1 20 (3/10) 2 0],
        e.meal_type ∈ mealKeys) ∧
    ∃ r : DailyResult,
      dailyAggregate [mkSample 1 1 0 "breakfast" 90 1 20 (3/10) 2 0] = .ok r ∧
      r.breakfast = ([mkSample 1 1 0 "breakfast" 90 1 20 (3/10) 2 0].filter
          (fun e => e.meal_type = "breakfast")).map mkDailyItem ∧
      r.lunch = ([mkSample 1 1 0 "breakfast" 90 1 20 (3/10) 2 0].filter
          (fun e => e.meal_type = "lunch")).map mkDailyItem ∧
      r.dinner = ([mkSample 1 1 0 "breakfast" 90 1 20 (3/10) 2 0].filter
          (fun e => e.meal_type = "dinner")).map mkDailyItem ∧
      r.snack = ([mkSample 1 1 0 "breakfast" 90 1 20 (3/10) 2 0].filter
          (fun e => e.meal_type = "snack")).map mkDailyItem ∧
      r.breakfast.length + r.lunch.length + r.dinner.length + r.snack.length =
        [mkSample 1 1 0 "breakfast" 90 1 20 (3/10) 2 0].length ∧
      r.totals.calories = sumContrib FoodEntry.calories
        [mkSample 1 1 0 "breakfast" 90 1 20 (3/10) 2 0] ∧
      r.totals.protein = sumContrib FoodEntry.protein
        [mkSample 1 1 0 "breakfast" 90 1 20 (3/10) 2 0] ∧
      r.totals.carbs = sumContrib FoodEntry.carbs
        [mkSample 1 1 0 "breakfast" 90 1 20 (3/10) 2 0] ∧
      r.totals.fat = sumContrib FoodEntry.fat
        [mkSample 1 1 0 "breakfast" 90 1 20 (3/10) 2 0] :=
  ⟨by decide, daily_aggregation_partitions_and_totals _ (by decide)⟩

/-- C9: under the contract precondition that every fetched row's meal type
is one of the four enumerated slots, the bucket lookup of the daily
aggregation never hits its `KeyError` branch: the operation returns `.ok`. -/
theorem daily_aggregation_total_on_conforming_input (entries : List FoodEntry)
    (h : ∀ e ∈ entries, e.meal_type ∈ mealKeys) :
    ∃ r : DailyResult, dailyAggregate entries = .ok r :=
  ⟨_, dailyLoop_ok entries DailyResult.empty h⟩

/-- Concrete instantiation of the no-`KeyError` theorem on a two-row input. -/
theorem daily_aggregation_total_on_conforming_input_witness :
    (∀ e ∈ [mkSample 1 1 0 "snack" 50 2 3 1 1 0, mkSample 2 1 0 "dinner" 200 10 30 5 1 1],
        e.meal_type ∈ mealKeys) ∧
    ∃ r : DailyResult,
      dailyAggregate [mkSample 1 1 0 "snack" 50 2 3 1 1 0,
        mkSample 2 1 0 "dinner" 200 10 30 5 1 1] = .ok r :=
  ⟨by decide, daily_aggregation_total_on_conforming_input _ (by decide)⟩

/-! ### Weekly aggregation (`get_weekly_stats`) -/

/-- The 7 calendar dates `start_date + i` for `i in range(7)` seeded into
`daily_stats` (keys in seeding order; `isoformat` keying is injective on
dates, so the day number stands for its ISO string). -/
def weekDays (start : Int) : List Int :=
  (List.range 7).map (fun (i : Nat) => start + (i : Int))

/-- The pre-seeded `daily_stats` dict: each of the 7 dates mapped to a
zeroed four-macro total. -/
def weeklyInit (start : Int) : List (Int × Totals) :=
  (weekDays start).map (fun d => (d, Totals.zero))

/-- `if day_key in daily_stats: daily_stats[day_key][...] += ...` — update
the value at the first occurrence of key `d`; a key not present leaves the
dict unchanged (the entry is silently ignored). -/
def addToDay : List (Int × Totals) → Int → FoodEntry → List (Int × Totals)
  | [], _, _ => []
  | (k, t) :: rest, d, e =>
    if k = d then (k, t.addEntry e) :: rest else (k, t) :: addToDay rest d e

/-- The `for entry in entries` loop of `get_weekly_stats`. -/
def weeklyLoop (entries : List FoodEntry) (stats : List (Int × Totals)) :
    List (Int × Totals) :=
  entries.foldl (fun s e => addToDay s e.date e) stats

/-- Result of `get_weekly_stats`. -/
structure WeeklyResult where
  start_date : Int
  end_date : Int
  daily_stats : List (Int × Totals)
  deriving DecidableEq, Repr

/-- The aggregation core of `get_weekly_stats` as a function of the start
date and the fetched rows: seed the 7-day window, then fold the rows in. -/
def weeklyScan (start : Int) (entries : List FoodEntry) : WeeklyResult :=
  { start_date := start
    end_date := start + 6
    daily_stats := weeklyLoop entries (weeklyInit start) }

theorem addToDay_fst (stats : List (Int × Totals)) (d : Int) (e : FoodEntry) :
    (addToDay stats d e).map Prod.fst = stats.map Prod.fst := by
  induction stats with
  | nil => rfl
  | cons p rest ih =>
    obtain ⟨k, t⟩ := p
    by_cases hk : k = d <;> simp [addToDay, hk, ih]

/-- Updating the bucket of key `d`, then summing the tail rows at each key,
is the same as summing all rows at each key — provided keys are distinct. -/
theorem addToDay_map_step (e : FoodEntry) (rest : List FoodEntry) :
    ∀ stats : List (Int × Totals), (stats.map Prod.fst).Nodup →
      (addToDay stats e.date e).map
          (fun p => (p.1, (rest.filter (fun x => x.date = p.1)).foldl Totals.addEntry p.2)) =
        stats.map
          (fun p => (p.1, ((e :: rest).filter (fun x => x.date = p.1)).foldl Totals.addEntry p.2)) := by
  intro stats
  induction stats with
  | nil => intro _; rfl
  | cons p tail ih =>
    intro hnd
    obtain ⟨k, t⟩ := p
    simp only [List.map_cons, List.nodup_cons] at hnd
    obtain ⟨hk_not, hnd_tail⟩ := hnd
    by_cases hk : k = e.date
    · subst hk
      have htail :
          tail.map (fun p =>
              (p.1, (rest.filter (fun x => x.date = p.1)).foldl Totals.addEntry p.2)) =
            tail.map (fun p =>
              (p.1, ((e :: rest).filter (fun x => x.date = p.1)).foldl Totals.addEntry p.2)) := by
        apply List.map_congr_left
        intro q hq
        have hq1 : ¬ (e.date = q.1) := by
          intro hcon
          apply hk_not
          rw [hcon]
          exact List.mem_map_of_mem Prod.fst hq
        simp [List.filter_cons, hq1]
      simp [addToDay, List.filter_cons, htail]
    · have hke : ¬ (e.date = k) := fun hcon => hk hcon.symm
      simp [addToDay, hk, List.filter_cons, hke, ih hnd_tail]

/-- Characterisation of the weekly loop on a dict with distinct keys: every
key survives and its value accumulates exactly the rows dated with it. -/
theorem weeklyLoop_map (entries : List FoodEntry) :
    ∀ stats : List (Int × Totals), (stats.map Prod.fst).Nodup →
      weeklyLoop entries stats = stats.map
        (fun p => (p.1, (entries.filter (fun x => x.date = p.1)).foldl Totals.addEntry p.2)) := by
  induction entries with
  | nil =>
    intro stats _
    simp [weeklyLoop]
  | cons e rest ih =>
    intro stats hnd
    have h1 : weeklyLoop (e :: rest) stats = weeklyLoop rest (addToDay stats e.date e) := rfl
    rw [h1, ih (addToDay stats e.date e) (by rw [addToDay_fst]; exact hnd)]
    exact addToDay_map_step e rest stats hnd

theorem weekDays_nodup (start : Int) : (weekDays start).Nodup := by
  rw [weekDays]
  apply List.Nodup.map
  · intro a b hab
    have hab2 : start + (a : Int) = start + (b : Int) := hab
    omega
  · exact List.nodup_range 7

theorem mem_weekDays (start d : Int) :
    d ∈ weekDays start ↔ start ≤ d ∧ d ≤ start + 6 := by
  constructor
  · intro hd
    rw [weekDays] at hd
    obtain ⟨i, hi, hie⟩ := List.mem_map.mp hd
    rw [List.mem_range] at hi
    have hie2 : start + (i : Int) = d := hie
    omega
  · intro hd
    rw [weekDays]
    apply List.mem_map.mpr
    refine ⟨(d - start).toNat, List.mem_range.mpr (by omega), ?_⟩
    show start + ((d - start).toNat : Int) = d
    omega

theorem foldl_addEntry (l : List FoodEntry) (t : Totals) :
    l.foldl Totals.addEntry t =
      { calories := t.calories + sumContrib FoodEntry.calories l
        protein := t.protein + sumContrib FoodEntry.protein l
        carbs := t.carbs + sumContrib FoodEntry.carbs l
        fat := t.fat + sumContrib FoodEntry.fat l } := by
  induction l generalizing t with
  | nil => simp [sumContrib_nil]
  | cons e rest ih =>
    rw [List.foldl_cons, ih]
    simp only [Totals.addEntry, sumContrib_cons, Totals.mk.injEq]
    refine ⟨?_, ?_, ?_, ?_⟩ <;> ring

/-- The fully evaluated weekly `daily_stats`: each of the 7 seeded dates,
in order, paired with the four sums over the rows dated with it. -/
theorem weeklyScan_daily_stats (start : Int) (entries : List FoodEntry) :
    (weeklyScan start entries).daily_stats = (weekDays start).map (fun d =>
      (d, { calories := sumContrib FoodEntry.calories (entries.filter (fun x => x.date = d))
            protein := sumContrib FoodEntry.protein (entries.filter (fun x => x.date = d))
            carbs := sumContrib FoodEntry.carbs (entries.filter (fun x => x.date = d))
            fat := sumContrib FoodEntry.fat (entries.filter (fun x => x.date = d)) : Totals })) := by
  have hnd : ((weeklyInit start).map Prod.fst).Nodup := by
    have : (weeklyInit start).map Prod.fst = weekDays start := by
      rw [weeklyInit, List.map_map]
      exact List.map_id _
    rw [this]; exact weekDays_nodup start
  show weeklyLoop entries (weeklyInit start) = _
  rw [weeklyLoop_map entries (weeklyInit start) hnd]
  simp only [weeklyInit, List.map_map]
  apply List.map_congr_left
  intro d _
  simp only [Function.comp_apply]
  rw [foldl_addEntry]
  simp [Totals.zero]

/-- Restricting rows to the query's date window, then to one in-window day,
selects the same rows as restricting to that day alone. -/
theorem filter_window_filter_date (start d : Int) (hd : start ≤ d ∧ d ≤ start + 6)
    (entries : List FoodEntry) :
    (entries.filter (fun e => start ≤ e.date ∧ e.date ≤ start + 6)).filter
        (fun x => x.date = d) =
      entries.filter (fun x => x.date = d) := by
  rw [List.filter_filter]
  apply List.filter_congr
  intro e _
  by_cases he : e.date = d
  · simp only [he, decide_eq_true_eq]
    simp [hd.1, hd.2]
  · simp [he]

/-- C2: for every `start_date` and fetched rows, the weekly aggregation
returns `end_date = start_date + 6`; its `daily_stats` keys are exactly the
7 seeded dates `start_date..start_date+6` in order (present, zeroed by
default); each day's bucket holds the four sums of
per-serving value × servings over the rows dated with it; and rows dated
outside the window are silently ignored (pre-filtering them away changes
nothing, no error, no extra key). -/
theorem weekly_aggregation_seven_day_window (start : Int) (entries : List FoodEntry) :
    (weeklyScan start entries).start_date = start ∧
    (weeklyScan start entries).end_date = start + 6 ∧
    ((weeklyScan start entries).daily_stats).map Prod.fst = weekDays start ∧
    ((weeklyScan start entries).daily_stats).length = 7 ∧
    (weeklyScan start entries).daily_stats = (weekDays start).map (fun d =>
      (d, { calories := sumContrib FoodEntry.calories (entries.filter (fun x => x.date = d))
            protein := sumContrib FoodEntry.protein (entries.filter (fun x => x.date = d))
            carbs := sumContrib FoodEntry.carbs (entries.filter (fun x => x.date = d))
            fat := sumContrib FoodEntry.fat (entries.filter (fun x => x.date = d)) : Totals })) ∧
    weeklyScan start (entries.filter (fun e => start ≤ e.date ∧ e.date ≤ start + 6)) =
      weeklyScan start entries := by
  refine ⟨rfl, rfl, ?_, ?_, weeklyScan_daily_stats start entries, ?_⟩
  · rw [weeklyScan_daily_stats, List.map_map]
    exact List.map_id _
  · rw [weeklyScan_daily_stats, List.length_map]
    rfl
  · have hds : (weeklyScan start (entries.filter
        (fun e => start ≤ e.date ∧ e.date ≤ start + 6))).daily_stats =
        (weeklyScan start entries).daily_stats := by
      rw [weeklyScan_daily_stats, weeklyScan_daily_stats]
      apply List.map_congr_left
      intro d hd
      rw [filter_window_filter_date start d ((mem_weekDays start d).mp hd) entries]
    unfold weeklyScan
    simp only [WeeklyResult.mk.injEq, true_and, and_true, eq_self_iff_true]
    exact hds

/-! ### Store-level route handlers -/

/-- Ordering used by the daily fetch:
`order_by(FoodEntry.meal_type, FoodEntry.created_at)`. -/
def dailyFetchLe (a b : FoodEntry) : Prop :=
  a.meal_type < b.meal_type ∨ (a.meal_type = b.meal_type ∧ a.created_at ≤ b.created_at)

instance : DecidableRel dailyFetchLe := fun a b =>
  inferInstanceAs (Decidable (a.meal_type < b.meal_type ∨
    (a.meal_type = b.meal_type ∧ a.created_at ≤ b.created_at)))

/-- Ordering used by the list-entries fetch:
`order_by(FoodEntry.date.desc(), FoodEntry.created_at.desc())`. -/
def entriesFetchLe (a b : FoodEntry) : Prop :=
  b.date < a.date ∨ (b.date = a.date ∧ b.created_at ≤ a.created_at)

instance : DecidableRel entriesFetchLe := fun a b =>
  inferInstanceAs (Decidable (b.date < a.date ∨
    (b.date = a.date ∧ b.created_at ≤ a.created_at)))

instance : IsTotal FoodEntry entriesFetchLe where
  total a b := by
    rw [entriesFetchLe, entriesFetchLe]
    omega

instance : IsTrans FoodEntry entriesFetchLe where
  trans a b c hab hbc := by
    rw [entriesFetchLe] at hab hbc ⊢
    omega

/-- `GET /entries/{user_id}/day/{entry_date}`: fetch the user's rows for the
exact date, ordered by meal type then creation time, then group and total. -/
def get_daily_entries (store : List FoodEntry) (uid d : Int) :
    Except String DailyResult :=
  dailyAggregate (List.insertionSort dailyFetchLe
    (store.filter (fun e => e.user_id = uid ∧ e.date = d)))

/-- `GET /stats/{user_id}/week` with an explicit `start_date`: fetch the
user's rows with date in `[start_date, start_date + 6]` and scan them into
the seeded week. -/
def get_weekly_stats (store : List FoodEntry) (uid start : Int) : WeeklyResult :=
  weeklyScan start (store.filter
    (fun e => e.user_id = uid ∧ start ≤ e.date ∧ e.date ≤ start + 6))

/-- The `if date_from:` filter of `GET /entries/{user_id}`. -/
def matchesFrom (date_from : Option Int) (e : FoodEntry) : Bool :=
  match date_from with
  | none => true
  | some d => decide (d ≤ e.date)

/-- The `if date_to:` filter of `GET /entries/{user_id}`. -/
def matchesTo (date_to : Option Int) (e : FoodEntry) : Bool :=
  match date_to with
  | none => true
  | some d => decide (e.date ≤ d)

/-- `GET /entries/{user_id}`: the user's rows, optionally range-filtered,
ordered by `(date desc, created_at desc)`. -/
def get_food_entries (store : List FoodEntry) (uid : Int)
    (date_from date_to : Option Int) : List FoodEntry :=
  List.insertionSort entriesFetchLe
    (store.filter (fun e =>
      decide (e.user_id = uid) && matchesFrom date_from e && matchesTo date_to e))

/-- C7: an unknown user id (no stored row carries it) makes neither
aggregation fail: the daily aggregation returns the four empty buckets with
zero totals and the weekly aggregation returns the 7 zero-seeded days —
never a not-found error. -/
theorem unknown_user_aggregations_empty (store : List FoodEntry)
    (uid d start : Int) (h : ∀ e ∈ store, e.user_id ≠ uid) :
    get_daily_entries store uid d = .ok DailyResult.empty ∧
    get_weekly_stats store uid start =
      { start_date := start, end_date := start + 6, daily_stats := weeklyInit start } := by
  have hd : store.filter (fun e => e.user_id = uid ∧ e.date = d) = [] := by
    apply List.filter_eq_nil_iff.mpr
    intro e he
    simp only [decide_eq_true_eq, not_and]
    intro hu
    exact absurd hu (h e he)
  have hw : store.filter (fun e => e.user_id = uid ∧ start ≤ e.date ∧ e.date ≤ start + 6) = [] := by
    apply List.filter_eq_nil_iff.mpr
    intro e he
    simp only [decide_eq_true_eq, not_and]
    intro hu
    exact absurd hu (h e he)
  constructor
  · rw [get_daily_entries, hd]
    rfl
  · rw [get_weekly_stats, hw]
    rfl

/-- Concrete instantiation: a store holding only rows of user 2 yields the
empty daily shape and the zero-seeded week for user 1. -/
theorem unknown_user_aggregations_empty_witness :
    (∀ e ∈ [mkSample 1 2 0 "lunch" 100 5 10 2 1 0], e.user_id ≠ 1) ∧
    (get_daily_entries [mkSample 1 2 0 "lunch" 100 5 10 2 1 0] 1 0 = .ok DailyResult.empty ∧
     get_weekly_stats [mkSample 1 2 0 "lunch" 100 5 10 2 1 0] 1 0 =
       { start_date := 0, end_date := 0 + 6, daily_stats := weeklyInit 0 }) :=
  ⟨by decide, unknown_user_aggregations_empty _ 1 0 0 (by decide)⟩

/-! ### Weight upsert (`create_weight_entry`) -/

/-- `app.models.models.WeightEntry` (the `weight_entries` table). -/
structure WeightEntry where
  id : Int
  user_id : Int
  date : Int
  weight : ℚ
  note : Option String
  created_at : Int
  deriving DecidableEq, Repr

/-- The `WeightEntryCreate` request body. -/
structure WeightEntryCreate where
  user_id : Int
  date : Int
  weight : ℚ
  note : Option String
  deriving DecidableEq, Repr

/-- Exact `(user_id, date)` match against a weight row. -/
def keyPred (u d : Int) (w : WeightEntry) : Bool :=
  decide (w.user_id = u ∧ w.date = d)

/-- The lookup predicate of the upsert: exact `(user_id, date)` match. -/
def weightKey (r : WeightEntryCreate) : WeightEntry → Bool :=
  keyPred r.user_id r.date

/-- In-place mutation of the first `(user_id, date)` match:
`existing.weight = entry.weight; existing.note = entry.note`. -/
def updateFirstWeight : List WeightEntry → WeightEntryCreate → List WeightEntry
  | [], _ => []
  | w :: rest, r =>
    if weightKey r w then { w with weight := r.weight, note := r.note } :: rest
    else w :: updateFirstWeight rest r

/-- `POST /weight`: look up an existing row for the exact `(user_id, date)`;
overwrite its weight and note if found, otherwise insert a new row (`newId`
and `created` stand for the store-assigned primary key and timestamp). -/
def create_weight_entry (store : List WeightEntry) (newId created : Int)
    (r : WeightEntryCreate) : List WeightEntry :=
  match store.find? (weightKey r) with
  | some _ => updateFirstWeight store r
  | none => store ++ [⟨newId, r.user_id, r.date, r.weight, r.note, created⟩]

/-- Number of stored rows for the exact `(user_id, date)` pair. -/
def keyCount (store : List WeightEntry) (u d : Int) : Nat :=
  store.countP (keyPred u d)

/-- The at-most-one-row-per-`(user, date)` invariant. -/
def atMostOnePerKey (store : List WeightEntry) : Prop :=
  ∀ u d : Int, keyCount store u d ≤ 1

theorem keyCount_nil (u d : Int) : keyCount [] u d = 0 := rfl

theorem keyCount_updateFirstWeight (store : List WeightEntry)
    (r : WeightEntryCreate) (u d : Int) :
    keyCount (updateFirstWeight store r) u d = keyCount store u d := by
  induction store with
  | nil => rfl
  | cons w rest ih =>
    by_cases hw : weightKey r w = true
    · rw [updateFirstWeight, if_pos hw]
      simp only [keyCount, List.countP_cons]
      rfl
    · rw [updateFirstWeight, if_neg hw]
      simp only [keyCount, List.countP_cons] at ih ⊢
      rw [ih]

theorem length_updateFirstWeight (store : List WeightEntry) (r : WeightEntryCreate) :
    (updateFirstWeight store r).length = store.length := by
  induction store with
  | nil => rfl
  | cons w rest ih =>
    by_cases hw : weightKey r w = true
    · simp [updateFirstWeight, hw]
    · simp [updateFirstWeight, hw, ih]

theorem map_id_updateFirstWeight (store : List WeightEntry) (r : WeightEntryCreate) :
    (updateFirstWeight store r).map WeightEntry.id = store.map WeightEntry.id := by
  induction store with
  | nil => rfl
  | cons w rest ih =>
    by_cases hw : weightKey r w = true
    · simp [updateFirstWeight, hw]
    · simp [updateFirstWeight, hw, ih]

/-- After the in-place overwrite, the row found for the key is the old row
with its `weight` and `note` replaced by the request's values. -/
theorem find?_updateFirstWeight (store : List WeightEntry) (r : WeightEntryCreate) :
    (updateFirstWeight store r).find? (weightKey r) =
      (store.find? (weightKey r)).map
        (fun w => { w with weight := r.weight, note := r.note }) := by
  induction store with
  | nil => rfl
  | cons w rest ih =>
    by_cases hw : weightKey r w = true
    · have hw2 : weightKey r { w with weight := r.weight, note := r.note } = true := hw
      rw [updateFirstWeight, if_pos hw, List.find?_cons_of_pos _ hw2,
        List.find?_cons_of_pos _ hw, Option.map_some']
    · rw [updateFirstWeight, if_neg hw, List.find?_cons_of_neg _ hw,
        List.find?_cons_of_neg _ hw, ih]

theorem keyCount_of_find?_none (store : List WeightEntry) (r : WeightEntryCreate)
    (h : store.find? (weightKey r) = none) :
    keyCount store r.user_id r.date = 0 := by
  rw [keyCount, List.countP_eq_zero]
  intro w hw
  exact List.find?_eq_none.mp h w hw

/-- If exactly one stored row matches the key, the overwrite leaves exactly
one row matching the key, carrying the request's weight and note. -/
theorem filter_updateFirstWeight_of_one (store : List WeightEntry)
    (r : WeightEntryCreate) (hc : keyCount store r.user_id r.date = 1) :
    ∃ w : WeightEntry,
      (updateFirstWeight store r).filter (weightKey r) = [w] ∧
      w.weight = r.weight ∧ w.note = r.note := by
  induction store with
  | nil => exact absurd hc (by simp [keyCount])
  | cons w rest ih =>
    by_cases hw : weightKey r w = true
    · have hrest : keyCount rest r.user_id r.date = 0 := by
        have hcnt : keyCount (w :: rest) r.user_id r.date =
            keyCount rest r.user_id r.date + 1 := by
          have hw2 : keyPred r.user_id r.date w = true := hw
          simp [keyCount, List.countP_cons, hw2]
        omega
      have hfil : rest.filter (weightKey r) = [] := by
        rw [List.filter_eq_nil_iff]
        intro x hx
        have h2 := (List.countP_eq_zero.mp hrest) x hx
        simpa [weightKey, keyPred] using h2
      refine ⟨{ w with weight := r.weight, note := r.note }, ?_, rfl, rfl⟩
      have hw2 : weightKey r { w with weight := r.weight, note := r.note } = true := hw
      rw [updateFirstWeight, if_pos hw, List.filter_cons_of_pos hw2, hfil]
    · have hrest : keyCount rest r.user_id r.date = 1 := by
        have hcnt : keyCount (w :: rest) r.user_id r.date =
            keyCount rest r.user_id r.date := by
          have hw2 : ¬ keyPred r.user_id r.date w = true := hw
          simp [keyCount, List.countP_cons, hw2]
        omega
      obtain ⟨x, hx1, hx2, hx3⟩ := ih hrest
      exact ⟨x, by rw [updateFirstWeight, if_neg hw, List.filter_cons_of_neg hw, hx1], hx2, hx3⟩

/-- Upserting always leaves exactly one row for the upserted key (when the
invariant held before). -/
theorem keyCount_create_weight_entry (store : List WeightEntry)
    (newId created : Int) (r : WeightEntryCreate) (h : atMostOnePerKey store) :
    keyCount (create_weight_entry store newId created r) r.user_id r.date = 1 := by
  rw [create_weight_entry]
  cases hf : store.find? (weightKey r) with
  | some w =>
    rw [keyCount_updateFirstWeight]
    have hmem := List.find?_some hf
    have hpos : 0 < keyCount store r.user_id r.date := by
      rw [keyCount, List.countP_pos_iff]
      exact ⟨w, List.mem_of_find?_eq_some hf, hmem⟩
    have hle := h r.user_id r.date
    omega
  | none =>
    rw [keyCount, List.countP_append]
    have h0 : keyCount store r.user_id r.date = 0 := keyCount_of_find?_none store r hf
    rw [keyCount] at h0
    rw [h0]
    simp [keyPred, List.countP_cons]

/-- C3 (part): the upsert preserves the at-most-one invariant. -/
theorem atMostOne_create_weight_entry (store : List WeightEntry)
    (newId created : Int) (r : WeightEntryCreate) (h : atMostOnePerKey store) :
    atMostOnePerKey (create_weight_entry store newId created r) := by
  intro u d
  rw [create_weight_entry]
  cases hf : store.find? (weightKey r) with
  | some w => rw [keyCount_updateFirstWeight]; exact h u d
  | none =>
    rw [keyCount, List.countP_append]
    by_cases hk : r.user_id = u ∧ r.date = d
    · have h0 : keyCount store r.user_id r.date = 0 := keyCount_of_find?_none store r hf
      rw [keyCount] at h0
      rw [hk.1, hk.2] at h0
      rw [h0]
      have h1 : List.countP (keyPred u d)
          [(⟨newId, r.user_id, r.date, r.weight, r.note, created⟩ : WeightEntry)] ≤ 1 := by
        have h2 : List.countP (keyPred u d)
            [(⟨newId, r.user_id, r.date, r.weight, r.note, created⟩ : WeightEntry)] ≤
            ([(⟨newId, r.user_id, r.date, r.weight, r.note, created⟩ : WeightEntry)]).length :=
          List.countP_le_length (keyPred u d)
        simpa using h2
      omega
    · have hnew : keyPred u d
          (⟨newId, r.user_id, r.date, r.weight, r.note, created⟩ : WeightEntry) = false := by
        simpa [keyPred] using hk
      have h1 : List.countP (keyPred u d)
          [(⟨newId, r.user_id, r.date, r.weight, r.note, created⟩ : WeightEntry)] = 0 := by
        rw [List.countP_cons_of_neg]
        · rfl
        · simp [hnew]
      rw [h1]
      have h2 := h u d
      rw [keyCount] at h2
      omega

/-- C3: the weight upsert (a) preserves the at-most-one-row-per-`(user, date)`
invariant; (b) when a row for the exact key exists it overwrites that row's
weight and note in place — same row count, same ids, found row carrying the
new values; (c) when none exists it appends exactly one new row with the
supplied fields; (d) logging twice for the same `(user, date)` leaves exactly
one stored row for that key, holding the second weight and note; (e) logging
two different dates into an empty store yields two rows. -/
theorem weight_upsert_spec (store : List WeightEntry) (i1 i2 c1 c2 : Int)
    (r1 r2 : WeightEntryCreate) (h : atMostOnePerKey store) :
    atMostOnePerKey (create_weight_entry store i1 c1 r1) ∧
    ((store.find? (weightKey r1)).isSome = true →
      (create_weight_entry store i1 c1 r1).length = store.length ∧
      (create_weight_entry store i1 c1 r1).map WeightEntry.id = store.map WeightEntry.id ∧
      (create_weight_entry store i1 c1 r1).find? (weightKey r1) =
        (store.find? (weightKey r1)).map
          (fun w => { w with weight := r1.weight, note := r1.note })) ∧
    (store.find? (weightKey r1) = none →
      create_weight_entry store i1 c1 r1 =
        store ++ [⟨i1, r1.user_id, r1.date, r1.weight, r1.note, c1⟩]) ∧
    (r2.user_id = r1.user_id → r2.date = r1.date →
      ∃ w : WeightEntry,
        (create_weight_entry (create_weight_entry store i1 c1 r1) i2 c2 r2).filter
            (weightKey r2) = [w] ∧
        w.weight = r2.weight ∧ w.note = r2.note) ∧
    (r1.date ≠ r2.date →
      (create_weight_entry (create_weight_entry [] i1 c1 r1) i2 c2 r2).length = 2) := by
  refine ⟨atMostOne_create_weight_entry store i1 c1 r1 h, ?_, ?_, ?_, ?_⟩
  · intro hsome
    obtain ⟨w, hw⟩ := Option.isSome_iff_exists.mp hsome
    have hcw : create_weight_entry store i1 c1 r1 = updateFirstWeight store r1 := by
      rw [create_weight_entry, hw]
    rw [hcw]
    exact ⟨length_updateFirstWeight store r1, map_id_updateFirstWeight store r1,
      find?_updateFirstWeight store r1⟩
  · intro hnone
    rw [create_weight_entry, hnone]
  · intro hu hd
    have hc1 : keyCount (create_weight_entry store i1 c1 r1) r1.user_id r1.date = 1 :=
      keyCount_create_weight_entry store i1 c1 r1 h
    have hc2 : keyCount (create_weight_entry store i1 c1 r1) r2.user_id r2.date = 1 := by
      rw [hu, hd]; exact hc1
    have hsome : ∃ w, (create_weight_entry store i1 c1 r1).find? (weightKey r2) = some w := by
      rw [← Option.isSome_iff_exists, List.find?_isSome]
      have hpos : 0 < keyCount (create_weight_entry store i1 c1 r1) r2.user_id r2.date := by
        omega
      rw [keyCount, List.countP_pos_iff] at hpos
      exact hpos
    obtain ⟨w, hw⟩ := hsome
    have hcw : create_weight_entry (create_weight_entry store i1 c1 r1) i2 c2 r2 =
        updateFirstWeight (create_weight_entry store i1 c1 r1) r2 := by
      rw [create_weight_entry, hw]
    rw [hcw]
    exact filter_updateFirstWeight_of_one (create_weight_entry store i1 c1 r1) r2 hc2
  · intro hdate
    have h1 : create_weight_entry [] i1 c1 r1 =
        [⟨i1, r1.user_id, r1.date, r1.weight, r1.note, c1⟩] := rfl
    rw [h1, create_weight_entry]
    have hkey : weightKey r2 (⟨i1, r1.user_id, r1.date, r1.weight, r1.note, c1⟩ : WeightEntry)
        = false := by
      simp only [weightKey, keyPred]
      simp only [decide_eq_false_iff_not, not_and]
      intro _
      exact fun hcon => hdate hcon
    rw [List.find?_cons_of_neg _ (by simp [hkey]), List.find?_nil]
    rfl

/-- Concrete instantiation: starting from an empty store, logging 70 then 72
for user 1 on day 10 leaves one row with weight 72 and the note of the
second request. -/
theorem weight_upsert_spec_witness :
    atMostOnePerKey [] ∧
    (atMostOnePerKey (create_weight_entry [] 1 100 ⟨1, 10, 70, none⟩) ∧
     ((([] : List WeightEntry).find? (weightKey ⟨1, 10, 70, none⟩)).isSome = true →
       (create_weight_entry [] 1 100 ⟨1, 10, 70, none⟩).length = ([] : List WeightEntry).length ∧
       (create_weight_entry [] 1 100 ⟨1, 10, 70, none⟩).map WeightEntry.id =
         ([] : List WeightEntry).map WeightEntry.id ∧
       (create_weight_entry [] 1 100 ⟨1, 10, 70, none⟩).find? (weightKey ⟨1, 10, 70, none⟩) =
         (([] : List WeightEntry).find? (weightKey ⟨1, 10, 70, none⟩)).map
           (fun w => { w with weight := (70 : ℚ), note := (none : Option String) })) ∧
     (([] : List WeightEntry).find? (weightKey ⟨1, 10, 70, none⟩) = none →
       create_weight_entry [] 1 100 ⟨1, 10, 70, none⟩ = [] ++ [⟨1, 1, 10, 70, none, 100⟩]) ∧
     (((⟨1, 10, 72, some "after run"⟩ : WeightEntryCreate).user_id =
         (⟨1, 10, 70, none⟩ : WeightEntryCreate).user_id →
       (⟨1, 10, 72, some "after run"⟩ : WeightEntryCreate).date =
         (⟨1, 10, 70, none⟩ : WeightEntryCreate).date →
       ∃ w : WeightEntry,
         (create_weight_entry (create_weight_entry [] 1 100 ⟨1, 10, 70, none⟩) 2 200
             ⟨1, 10, 72, some "after run"⟩).filter (weightKey ⟨1, 10, 72, some "after run"⟩) =
           [w] ∧
         w.weight = (⟨1, 10, 72, some "after run"⟩ : WeightEntryCreate).weight ∧
         w.note = (⟨1, 10, 72, some "after run"⟩ : WeightEntryCreate).note) ∧
     ((⟨1, 10, 70, none⟩ : WeightEntryCreate).date ≠
         (⟨1, 10, 72, some "after run"⟩ : WeightEntryCreate).date →
       (create_weight_entry (create_weight_entry [] 1 100 ⟨1, 10, 70, none⟩) 2 200
           ⟨1, 10, 72, some "after run"⟩).length = 2))) :=
  ⟨fun u d => by simp [keyCount],
   weight_upsert_spec [] 1 2 100 200 ⟨1, 10, 70, none⟩ ⟨1, 10, 72, some "after run"⟩
     (fun u d => by simp [keyCount])⟩

/-! ### Goal profile update (`update_user`) -/

/-- `app.models.models.User` (the `users` table). -/
structure User where
  id : Int
  name : String
  calorie_goal : Int
  protein_goal : Int
  carb_goal : Int
  fat_goal : Int
  created_at : Int
  deriving DecidableEq, Repr

/-- The `UserUpdate` request body: each goal optional; `none` stands for a
field that is unset or explicitly null (both are skipped by the loop's
`if value is not None`). -/
structure UserUpdate where
  calorie_goal : Option Int
  protein_goal : Option Int
  carb_goal : Option Int
  fat_goal : Option Int
  deriving DecidableEq, Repr

/-- The `for field, value in user_update.dict(exclude_unset=True).items()`
loop: `setattr` each supplied non-null goal, in declaration order. -/
def applyUserUpdate (u : User) (p : UserUpdate) : User :=
  let u1 := match p.calorie_goal with
    | some v => { u with calorie_goal := v }
    | none => u
  let u2 := match p.protein_goal with
    | some v => { u1 with protein_goal := v }
    | none => u1
  let u3 := match p.carb_goal with
    | some v => { u2 with carb_goal := v }
    | none => u2
  match p.fat_goal with
  | some v => { u3 with fat_goal := v }
  | none => u3

/-- `User.id == user_id` lookup predicate. -/
def userKey (uid : Int) (u : User) : Bool := decide (u.id = uid)

/-- In-place mutation of the first id match. -/
def updateFirstUser : List User → Int → UserUpdate → List User
  | [], _, _ => []
  | u :: rest, uid, p =>
    if userKey uid u then applyUserUpdate u p :: rest
    else u :: updateFirstUser rest uid p

/-- `PUT /users/{user_id}`: 404 with no store change when the id is absent,
otherwise apply the sparse goal update to the matched user. -/
def update_user (store : List User) (uid : Int) (p : UserUpdate) :
    List User × Option String :=
  match store.find? (userKey uid) with
  | none => (store, some "User not found")
  | some _ => (updateFirstUser store uid p, none)

theorem applyUserUpdate_fields (u : User) (p : UserUpdate) :
    (applyUserUpdate u p).id = u.id ∧
    (applyUserUpdate u p).name = u.name ∧
    (applyUserUpdate u p).created_at = u.created_at ∧
    (applyUserUpdate u p).calorie_goal = p.calorie_goal.getD u.calorie_goal ∧
    (applyUserUpdate u p).protein_goal = p.protein_goal.getD u.protein_goal ∧
    (applyUserUpdate u p).carb_goal = p.carb_goal.getD u.carb_goal ∧
    (applyUserUpdate u p).fat_goal = p.fat_goal.getD u.fat_goal := by
  obtain ⟨c, pr, cb, f⟩ := p
  cases c <;> cases pr <;> cases cb <;> cases f <;>
    simp [applyUserUpdate, Option.getD]

theorem find?_updateFirstUser (store : List User) (uid : Int) (p : UserUpdate)
    (u : User) (h : store.find? (userKey uid) = some u) :
    (updateFirstUser store uid p).find? (userKey uid) = some (applyUserUpdate u p) := by
  induction store with
  | nil => exact absurd h (by simp)
  | cons v rest ih =>
    by_cases hv : userKey uid v = true
    · rw [List.find?_cons_of_pos _ hv, Option.some.injEq] at h
      subst h
      have hv2 : userKey uid (applyUserUpdate v p) = true := by
        have hid := (applyUserUpdate_fields v p).1
        simp only [userKey] at hv ⊢
        rw [hid]
        exact hv
      rw [updateFirstUser, if_pos hv, List.find?_cons_of_pos _ hv2]
    · rw [List.find?_cons_of_neg _ hv] at h
      rw [updateFirstUser, if_neg hv, List.find?_cons_of_neg _ hv]
      exact ih h

theorem mem_updateFirstUser_of_other (store : List User) (uid : Int)
    (p : UserUpdate) (v : User) (hv : v ∈ store) (hk : userKey uid v = false) :
    v ∈ updateFirstUser store uid p := by
  induction store with
  | nil => exact absurd hv (by simp)
  | cons w rest ih =>
    by_cases hw : userKey uid w = true
    · rw [updateFirstUser, if_pos hw]
      rcases List.mem_cons.mp hv with hvw | hvr
      · subst hvw
        rw [hw] at hk
        exact absurd hk (by simp)
      · exact List.mem_cons_of_mem _ hvr
    · rw [updateFirstUser, if_neg hw]
      rcases List.mem_cons.mp hv with hvw | hvr
      · subst hvw
        exact List.mem_cons_self v _
      · exact List.mem_cons_of_mem _ (ih hvr)

/-- C5: the goal update (a) fails with "User not found" and returns the
store untouched when the id is absent; (b) on the matched user it sets
exactly the goal fields supplied in the payload (`getD`: supplied value,
else old value) and leaves id, name and created_at unchanged; (c) on a
found id it succeeds and the stored row for that id becomes the sparsely
updated user; (d) every other stored user survives unchanged. -/
theorem user_goal_update_partial (store : List User) (uid : Int)
    (p : UserUpdate) (u : User) :
    (store.find? (userKey uid) = none →
      update_user store uid p = (store, some "User not found")) ∧
    ((applyUserUpdate u p).id = u.id ∧
     (applyUserUpdate u p).name = u.name ∧
     (applyUserUpdate u p).created_at = u.created_at ∧
     (applyUserUpdate u p).calorie_goal = p.calorie_goal.getD u.calorie_goal ∧
     (applyUserUpdate u p).protein_goal = p.protein_goal.getD u.protein_goal ∧
     (applyUserUpdate u p).carb_goal = p.carb_goal.getD u.carb_goal ∧
     (applyUserUpdate u p).fat_goal = p.fat_goal.getD u.fat_goal) ∧
    (store.find? (userKey uid) = some u →
      update_user store uid p = (updateFirstUser store uid p, none) ∧
      (updateFirstUser store uid p).find? (userKey uid) = some (applyUserUpdate u p)) ∧
    (∀ v ∈ store, userKey uid v = false → v ∈ updateFirstUser store uid p) := by
  refine ⟨?_, applyUserUpdate_fields u p, ?_, ?_⟩
  · intro hnone
    rw [update_user, hnone]
  · intro hsome
    constructor
    · rw [update_user, hsome]
    · exact find?_updateFirstUser store uid p u hsome
  · intro v hv hk
    exact mem_updateFirstUser_of_other store uid p v hv hk

/-! ### Food entry servings update (`update_food_entry`) -/

/-- `FoodEntry.id == entry_id` lookup predicate. -/
def entryKey (eid : Int) (e : FoodEntry) : Bool := decide (e.id = eid)

/-- `entry.servings = servings`: only the servings attribute is assigned. -/
def setServings (e : FoodEntry) (s : ℚ) : FoodEntry := { e with servings := s }

/-- In-place mutation of the first id match. -/
def updateFirstEntry : List FoodEntry → Int → ℚ → List FoodEntry
  | [], _, _ => []
  | e :: rest, eid, s =>
    if entryKey eid e then setServings e s :: rest
    else e :: updateFirstEntry rest eid s

/-- `PUT /entries/{entry_id}`: 404 with no store change when the id is
absent, otherwise overwrite the matched entry's servings. -/
def update_food_entry (store : List FoodEntry) (eid : Int) (s : ℚ) :
    List FoodEntry × Option String :=
  match store.find? (entryKey eid) with
  | none => (store, some "Entry not found")
  | some _ => (updateFirstEntry store eid s, none)

theorem setServings_fields (e : FoodEntry) (s : ℚ) :
    (setServings e s).servings = s ∧
    (setServings e s).id = e.id ∧
    (setServings e s).user_id = e.user_id ∧
    (setServings e s).date = e.date ∧
    (setServings e s).meal_type = e.meal_type ∧
    (setServings e s).name = e.name ∧
    (setServings e s).brand = e.brand ∧
    (setServings e s).barcode = e.barcode ∧
    (setServings e s).serving_size = e.serving_size ∧
    (setServings e s).calories = e.calories ∧
    (setServings e s).protein = e.protein ∧
    (setServings e s).carbs = e.carbs ∧
    (setServings e s).fat = e.fat ∧
    (setServings e s).fiber = e.fiber ∧
    (setServings e s).sugar = e.sugar ∧
    (setServings e s).source = e.source ∧
    (setServings e s).external_id = e.external_id ∧
    (setServings e s).image_url = e.image_url ∧
    (setServings e s).created_at = e.created_at := by
  simp [setServings]

theorem find?_updateFirstEntry (store : List FoodEntry) (eid : Int) (s : ℚ)
    (e : FoodEntry) (h : store.find? (entryKey eid) = some e) :
    (updateFirstEntry store eid s).find? (entryKey eid) = some (setServings e s) := by
  induction store with
  | nil => exact absurd h (by simp)
  | cons v rest ih =>
    by_cases hv : entryKey eid v = true
    · rw [List.find?_cons_of_pos _ hv, Option.some.injEq] at h
      subst h
      have hv2 : entryKey eid (setServings v s) = true := hv
      rw [updateFirstEntry, if_pos hv, List.find?_cons_of_pos _ hv2]
    · rw [List.find?_cons_of_neg _ hv] at h
      rw [updateFirstEntry, if_neg hv, List.find?_cons_of_neg _ hv]
      exact ih h

theorem mem_updateFirstEntry_of_other (store : List FoodEntry) (eid : Int)
    (s : ℚ) (v : FoodEntry) (hv : v ∈ store) (hk : entryKey eid v = false) :
    v ∈ updateFirstEntry store eid s := by
  induction store with
  | nil => exact absurd hv (by simp)
  | cons w rest ih =>
    by_cases hw : entryKey eid w = true
    · rw [updateFirstEntry, if_pos hw]
      rcases List.mem_cons.mp hv with hvw | hvr
      · subst hvw
        rw [hw] at hk
        exact absurd hk (by simp)
      · exact List.mem_cons_of_mem _ hvr
    · rw [updateFirstEntry, if_neg hw]
      rcases List.mem_cons.mp hv with hvw | hvr
      · subst hvw
        exact List.mem_cons_self v _
      · exact List.mem_cons_of_mem _ (ih hvr)

/-- C10: the servings update (a) fails with "Entry not found" and returns
the store untouched when the id is absent; (b) on the matched entry it sets
servings to the supplied value and leaves all other fields — identity,
descriptive, nutrition, provenance and timestamp — unchanged; (c) on a
found id it succeeds and the stored row becomes the servings-updated entry;
(d) every other stored entry survives unchanged. -/
theorem entry_servings_update_frame (store : List FoodEntry) (eid : Int)
    (s : ℚ) (e : FoodEntry) :
    (store.find? (entryKey eid) = none →
      update_food_entry store eid s = (store, some "Entry not found")) ∧
    ((setServings e s).servings = s ∧
     (setServings e s).id = e.id ∧
     (setServings e s).user_id = e.user_id ∧
     (setServings e s).date = e.date ∧
     (setServings e s).meal_type = e.meal_type ∧
     (setServings e s).name = e.name ∧
     (setServings e s).brand = e.brand ∧
     (setServings e s).barcode = e.barcode ∧
     (setServings e s).serving_size = e.serving_size ∧
     (setServings e s).calories = e.calories ∧
     (setServings e s).protein = e.protein ∧
     (setServings e s).carbs = e.carbs ∧
     (setServings e s).fat = e.fat ∧
     (setServings e s).fiber = e.fiber ∧
     (setServings e s).sugar = e.sugar ∧
     (setServings e s).source = e.source ∧
     (setServings e s).external_id = e.external_id ∧
     (setServings e s).image_url = e.image_url ∧
     (setServings e s).created_at = e.created_at) ∧
    (store.find? (entryKey eid) = some e →
      update_food_entry store eid s = (updateFirstEntry store eid s, none) ∧
      (updateFirstEntry store eid s).find? (entryKey eid) = some (setServings e s)) ∧
    (∀ v ∈ store, entryKey eid v = false → v ∈ updateFirstEntry store eid s) := by
  refine ⟨?_, setServings_fields e s, ?_, ?_⟩
  · intro hnone
    rw [update_food_entry, hnone]
  · intro hsome
    constructor
    · rw [update_food_entry, hsome]
    · exact find?_updateFirstEntry store eid s e hsome
  · intro v hv hk
    exact mem_updateFirstEntry_of_other store eid s v hv hk

/-! ### Open Food Facts service (`app.services.openfoodfacts`) -/

/-- JSON values, as produced by `response.json()`. -/
inductive Json where
  | null
  | bool (b : Bool)
  | num (q : ℚ)
  | str (s : String)
  | arr (xs : List Json)
  | obj (kvs : List (String × Json))

/-- First-match key lookup in a JSON object. -/
def dictGet : List (String × Json) → String → Option Json
  | [], _ => none
  | (k, v) :: rest, key => if k = key then some v else dictGet rest key

/-- Python's `dict.get(key, default)`: the stored value when the key is
present (even if it is null), else the default. -/
def pyGet (kvs : List (String × Json)) (key : String) (default : Json) : Json :=
  (dictGet kvs key).getD default

/-- The canonical fact dict built by both `search_food` and
`get_product_by_barcode` (the source repeats the same eleven-field dict
literally in both functions). Raw JSON values are carried through
unconverted, as in Python. -/
structure FoodFact where
  barcode : Json
  name : Json
  brand : Json
  image_url : Json
  serving_size : Json
  calories_per_100g : Json
  protein_per_100g : Json
  carbs_per_100g : Json
  fat_per_100g : Json
  fiber_per_100g : Json
  sugar_per_100g : Json
  source : String

/-- One product record normalized: `product.get(...)` calls with the
defaults of the source. A non-object product or a non-object (or null)
`nutriments` value makes Python's `.get` raise `AttributeError`. -/
def normalizeProduct (p : Json) : Except String FoodFact :=
  match p with
  | .obj kvs =>
    match pyGet kvs "nutriments" (.obj []) with
    | .obj nkvs =>
      .ok { barcode := pyGet kvs "code" .null
            name := pyGet kvs "product_name" (.str "Unbekannt")
            brand := pyGet kvs "brands" (.str "")
            image_url := pyGet kvs "image_front_small_url" .null
            serving_size := pyGet kvs "serving_size" (.str "100g")
            calories_per_100g := pyGet nkvs "energy-kcal_100g" (.num 0)
            protein_per_100g := pyGet nkvs "proteins_100g" (.num 0)
            carbs_per_100g := pyGet nkvs "carbohydrates_100g" (.num 0)
            fat_per_100g := pyGet nkvs "fat_100g" (.num 0)
            fiber_per_100g := pyGet nkvs "fiber_100g" (.num 0)
            sugar_per_100g := pyGet nkvs "sugars_100g" (.num 0)
            source := "openfoodfacts" }
    | _ => .error "AttributeError"
  | _ => .error "AttributeError"

/-- The `for product in data.get("products", [])` loop: the first raised
error propagates. -/
def normalizeProducts : List Json → Except String (List FoodFact)
  | [] => .ok []
  | p :: rest => do
    let f ← normalizeProduct p
    let fs ← normalizeProducts rest
    .ok (f :: fs)

/-- Outcome of the HTTP call to the upstream service: either the request
itself raises (`httpx` timeout or connection error), or a response arrives
with a status code and a body that may fail to parse
(`none` models `response.json()` raising). -/
inductive Upstream where
  | timeout
  | response (status_code : Int) (body : Option Json)

/-- Result dict of `search_food`. The non-200 branch returns only
`products` and `count`, so `page`/`page_size` are optional. -/
structure SearchResult where
  products : List FoodFact
  count : Json
  page : Option Int
  page_size : Option Int

/-- `app.services.openfoodfacts.search_food` as a function of the upstream
outcome: a non-200 status degrades to the empty result; a raised transport
or parse error is not caught anywhere and propagates (`.error`). -/
def search_food (u : Upstream) (page page_size : Int) : Except String SearchResult :=
  match u with
  | .timeout => .error "ReadTimeout"
  | .response status body =>
    if status ≠ 200 then
      .ok { products := [], count := .num 0, page := none, page_size := none }
    else
      match body with
      | none => .error "JSONDecodeError"
      | some data =>
        match data with
        | .obj kvs =>
          match pyGet kvs "products" (.arr []) with
          | .arr ps =>
            match normalizeProducts ps with
            | .ok facts =>
              .ok { products := facts, count := pyGet kvs "count" (.num 0),
                    page := some page, page_size := some page_size }
            | .error msg => .error msg
          | _ => .error "TypeError"
        | _ => .error "AttributeError"

/-- Python's `data.get("status") != 1` test (negated): a JSON number equal
to 1, or JSON `true` (since `True == 1` in Python), passes. -/
def statusEqOne (j : Json) : Bool :=
  match j with
  | .num q => q == 1
  | .bool b => b
  | _ => false

/-- `app.services.openfoodfacts.get_product_by_barcode` as a function of
the upstream outcome: non-200 or `status != 1` degrade to not-found
(`none`); a raised transport or parse error propagates (`.error`). -/
def get_product_by_barcode (u : Upstream) : Except String (Option FoodFact) :=
  match u with
  | .timeout => .error "ReadTimeout"
  | .response status body =>
    if status ≠ 200 then .ok none
    else
      match body with
      | none => .error "JSONDecodeError"
      | some data =>
        match data with
        | .obj kvs =>
          if statusEqOne (pyGet kvs "status" .null) then
            match normalizeProduct (pyGet kvs "product" (.obj [])) with
            | .ok f => .ok (some f)
            | .error msg => .error msg
          else .ok none
        | _ => .error "AttributeError"

/-- C4 counterexample: a 200 response whose body is not parseable JSON
makes `search_food` raise a decode error to its caller, and a timed-out
request makes `get_product_by_barcode` raise — upstream transport errors
are not all absorbed. -/
theorem upstream_error_absorption_counterexample :
    search_food (Upstream.response 200 none) 1 20 = .error "JSONDecodeError" ∧
    get_product_by_barcode Upstream.timeout = .error "ReadTimeout" :=
  ⟨rfl, rfl⟩

/-- C4 amended: a non-success (non-200) status degrades to the empty result
set for search and to not-found for barcode lookup, as does an upstream
`status != 1` payload; but an unparseable body on a 200 response and a
timed-out request propagate to the caller as raised errors — only the
non-200 case is absorbed. -/
theorem upstream_error_absorption_amended (status page psize : Int)
    (body : Option Json) (kvs : List (String × Json)) :
    (status ≠ 200 → search_food (.response status body) page psize =
      .ok { products := [], count := .num 0, page := none, page_size := none }) ∧
    (status ≠ 200 → get_product_by_barcode (.response status body) = .ok none) ∧
    (statusEqOne (pyGet kvs "status" .null) = false →
      get_product_by_barcode (.response 200 (some (.obj kvs))) = .ok none) ∧
    search_food (.response 200 none) page psize = .error "JSONDecodeError" ∧
    get_product_by_barcode (.response 200 none) = .error "JSONDecodeError" ∧
    search_food .timeout page psize = .error "ReadTimeout" ∧
    get_product_by_barcode .timeout = .error "ReadTimeout" := by
  refine ⟨?_, ?_, ?_, rfl, rfl, rfl, rfl⟩
  · intro hs
    simp [search_food, hs]
  · intro hs
    simp [get_product_by_barcode, hs]
  · intro hst
    simp [get_product_by_barcode, hst]

/-- C6 counterexample: a product record with no fields at all normalizes
with name placeholder `"Unbekannt"` (the German word), which is not the
literal string `"unknown"`; the other defaults are as claimed. -/
theorem normalizer_unknown_placeholder_counterexample :
    normalizeProduct (Json.obj []) = .ok
      { barcode := .null, name := .str "Unbekannt", brand := .str "",
        image_url := .null, serving_size := .str "100g",
        calories_per_100g := .num 0, protein_per_100g := .num 0,
        carbs_per_100g := .num 0, fat_per_100g := .num 0,
        fiber_per_100g := .num 0, sugar_per_100g := .num 0,
        source := "openfoodfacts" } ∧
    Json.str "Unbekannt" ≠ Json.str "unknown" := by
  refine ⟨rfl, ?_⟩
  intro hcon
  exact absurd (Json.str.inj hcon) (by decide)

/-- C6 amended: for every raw product record (with a usable nutrient map),
the normalizer — shared verbatim by search and barcode lookup — defaults a
missing display name to the literal `"Unbekannt"` placeholder (not
`"unknown"`), a missing brand to the empty string, a missing image URL to
null (never a placeholder string), a missing serving-size descriptor to the
literal `"100g"`, each of the six per-100g macros absent from the nutrient
map to 0 (in particular all six when `nutriments` is absent entirely), and
always stamps provenance `"openfoodfacts"`. -/
theorem normalizer_defaulting (kvs nkvs : List (String × Json))
    (h : pyGet kvs "nutriments" (.obj []) = .obj nkvs) :
    ∃ f : FoodFact, normalizeProduct (.obj kvs) = .ok f ∧
      f.source = "openfoodfacts" ∧
      (dictGet kvs "product_name" = none → f.name = .str "Unbekannt") ∧
      (dictGet kvs "brands" = none → f.brand = .str "") ∧
      (dictGet kvs "image_front_small_url" = none → f.image_url = .null) ∧
      (dictGet kvs "serving_size" = none → f.serving_size = .str "100g") ∧
      (dictGet nkvs "energy-kcal_100g" = none → f.calories_per_100g = .num 0) ∧
      (dictGet nkvs "proteins_100g" = none → f.protein_per_100g = .num 0) ∧
      (dictGet nkvs "carbohydrates_100g" = none → f.carbs_per_100g = .num 0) ∧
      (dictGet nkvs "fat_100g" = none → f.fat_per_100g = .num 0) ∧
      (dictGet nkvs "fiber_100g" = none → f.fiber_per_100g = .num 0) ∧
      (dictGet nkvs "sugars_100g" = none → f.sugar_per_100g = .num 0) ∧
      (dictGet kvs "nutriments" = none →
        f.calories_per_100g = .num 0 ∧ f.protein_per_100g = .num 0 ∧
        f.carbs_per_100g = .num 0 ∧ f.fat_per_100g = .num 0 ∧
        f.fiber_per_100g = .num 0 ∧ f.sugar_per_100g = .num 0) := by
  refine ⟨{ barcode := pyGet kvs "code" .null
            name := pyGet kvs "product_name" (.str "Unbekannt")
            brand := pyGet kvs "brands" (.str "")
            image_url := pyGet kvs "image_front_small_url" .null
            serving_size := pyGet kvs "serving_size" (.str "100g")
            calories_per_100g := pyGet nkvs "energy-kcal_100g" (.num 0)
            protein_per_100g := pyGet nkvs "proteins_100g" (.num 0)
            carbs_per_100g := pyGet nkvs "carbohydrates_100g" (.num 0)
            fat_per_100g := pyGet nkvs "fat_100g" (.num 0)
            fiber_per_100g := pyGet nkvs "fiber_100g" (.num 0)
            sugar_per_100g := pyGet nkvs "sugars_100g" (.num 0)
            source := "openfoodfacts" },
    ?_, rfl, ?_, ?_, ?_, ?_, ?_, ?_, ?_, ?_, ?_, ?_, ?_⟩
  · simp [normalizeProduct, h]
  · intro hn
    show pyGet kvs "product_name" (Json.str "Unbekannt") = Json.str "Unbekannt"
    rw [pyGet, hn]
    rfl
  · intro hn
    show pyGet kvs "brands" (Json.str "") = Json.str ""
    rw [pyGet, hn]
    rfl
  · intro hn
    show pyGet kvs "image_front_small_url" Json.null = Json.null
    rw [pyGet, hn]
    rfl
  · intro hn
    show pyGet kvs "serving_size" (Json.str "100g") = Json.str "100g"
    rw [pyGet, hn]
    rfl
  · intro hn
    show pyGet nkvs "energy-kcal_100g" (Json.num 0) = Json.num 0
    rw [pyGet, hn]
    rfl
  · intro hn
    show pyGet nkvs "proteins_100g" (Json.num 0) = Json.num 0
    rw [pyGet, hn]
    rfl
  · intro hn
    show pyGet nkvs "carbohydrates_100g" (Json.num 0) = Json.num 0
    rw [pyGet, hn]
    rfl
  · intro hn
    show pyGet nkvs "fat_100g" (Json.num 0) = Json.num 0
    rw [pyGet, hn]
    rfl
  · intro hn
    show pyGet nkvs "fiber_100g" (Json.num 0) = Json.num 0
    rw [pyGet, hn]
    rfl
  · intro hn
    show pyGet nkvs "sugars_100g" (Json.num 0) = Json.num 0
    rw [pyGet, hn]
    rfl
  · intro habs
    have h2 := h
    rw [pyGet, habs] at h2
    have hnk : ([] : List (String × Json)) = nkvs := Json.obj.inj h2
    subst hnk
    exact ⟨rfl, rfl, rfl, rfl, rfl, rfl⟩

/-- Concrete instantiation of the defaulting theorem on the empty product
record: every conditional default fires. -/
theorem normalizer_defaulting_witness :
    pyGet [] "nutriments" (.obj []) = Json.obj [] ∧
    (∃ f : FoodFact, normalizeProduct (.obj []) = .ok f ∧
      f.source = "openfoodfacts" ∧
      (dictGet [] "product_name" = none → f.name = .str "Unbekannt") ∧
      (dictGet [] "brands" = none → f.brand = .str "") ∧
      (dictGet [] "image_front_small_url" = none → f.image_url = .null) ∧
      (dictGet [] "serving_size" = none → f.serving_size = .str "100g") ∧
      (dictGet [] "energy-kcal_100g" = none → f.calories_per_100g = .num 0) ∧
      (dictGet [] "proteins_100g" = none → f.protein_per_100g = .num 0) ∧
      (dictGet [] "carbohydrates_100g" = none → f.carbs_per_100g = .num 0) ∧
      (dictGet [] "fat_100g" = none → f.fat_per_100g = .num 0) ∧
      (dictGet [] "fiber_100g" = none → f.fiber_per_100g = .num 0) ∧
      (dictGet [] "sugars_100g" = none → f.sugar_per_100g = .num 0) ∧
      (dictGet [] "nutriments" = none →
        f.calories_per_100g = .num 0 ∧ f.protein_per_100g = .num 0 ∧
        f.carbs_per_100g = .num 0 ∧ f.fat_per_100g = .num 0 ∧
        f.fiber_per_100g = .num 0 ∧ f.sugar_per_100g = .num 0)) :=
  ⟨rfl, normalizer_defaulting [] [] rfl⟩

/-! ### List-entries ordering (`get_food_entries`) -/

/-- The ordering the Entry Store Adapter contract specifies for listing:
date descending, then meal type, then creation time. -/
def specEntryOrder (a b : FoodEntry) : Prop :=
  b.date < a.date ∨ (b.date = a.date ∧ (a.meal_type < b.meal_type ∨
    (a.meal_type = b.meal_type ∧ a.created_at ≤ b.created_at)))

instance : DecidableRel specEntryOrder := fun a b =>
  inferInstanceAs (Decidable (b.date < a.date ∨ (b.date = a.date ∧
    (a.meal_type < b.meal_type ∨
      (a.meal_type = b.meal_type ∧ a.created_at ≤ b.created_at)))))

/-- C8 counterexample: two same-day rows of user 1, a breakfast created at
time 0 and a snack created at time 1. The handler returns the snack first
(created_at descending), but the contract's ordering
(date desc, meal_type, created_at) requires the breakfast first — the
output is not sorted by the specified key, because the code orders by
`(date desc, created_at desc)` with no meal-type key. -/
theorem entries_listing_order_counterexample :
    get_food_entries
        [mkSample 1 1 0 "breakfast" 90 1 20 1 1 0, mkSample 2 1 0 "snack" 50 2 3 1 1 1]
        1 none none =
      [mkSample 2 1 0 "snack" 50 2 3 1 1 1, mkSample 1 1 0 "breakfast" 90 1 20 1 1 0] ∧
    ¬ List.Pairwise specEntryOrder (get_food_entries
        [mkSample 1 1 0 "breakfast" 90 1 20 1 1 0, mkSample 2 1 0 "snack" 50 2 3 1 1 1]
        1 none none) := by
  have heq : get_food_entries
      [mkSample 1 1 0 "breakfast" 90 1 20 1 1 0, mkSample 2 1 0 "snack" 50 2 3 1 1 1]
      1 none none =
      [mkSample 2 1 0 "snack" 50 2 3 1 1 1, mkSample 1 1 0 "breakfast" 90 1 20 1 1 0] := rfl
  refine ⟨heq, ?_⟩
  rw [heq]
  intro hp
  have h1 : specEntryOrder (mkSample 2 1 0 "snack" 50 2 3 1 1 1)
      (mkSample 1 1 0 "breakfast" 90 1 20 1 1 0) :=
    List.rel_of_pairwise_cons hp (List.mem_singleton.mpr rfl)
  simp only [specEntryOrder, mkSample] at h1
  rcases h1 with h | ⟨_, h2 | ⟨h3, _⟩⟩
  · omega
  · rw [String.lt_iff_toList_lt] at h2
    exact absurd h2 (by decide)
  · exact absurd h3 (by decide)

/-- C8 amended: list-entries returns exactly the user's (optionally
range-filtered) rows, sorted by `(date desc, created_at desc)` — the actual
`order_by` of the handler; meal type is not an ordering key. -/
theorem entries_listing_order (store : List FoodEntry) (uid : Int)
    (dfrom dto : Option Int) :
    List.Sorted entriesFetchLe (get_food_entries store uid dfrom dto) ∧
    (get_food_entries store uid dfrom dto).Perm
      (store.filter (fun e =>
        decide (e.user_id = uid) && matchesFrom dfrom e && matchesTo dto e)) :=
  ⟨List.sorted_insertionSort entriesFetchLe _, List.perm_insertionSort entriesFetchLe _⟩

end CalTrack
